import Mathlib

/-!
Shallow embedding of the wallet ledger engine of this repository.

The embedded code is the `wallet-service` variant, which is the complete
one: `app/repositories/wallet_repo.py` (`WalletRepository.create_wallet`,
`WalletRepository.update_balance`) and `app/services/wallet_service.py`
(`WalletService.create_wallet`, `WalletService.perform_operation`),
over the table layout of `wallet-service-cursor/app/models/wallet.py`
and the exception classes of `my_wallet_service/utils/exceptions.py`.

Modelling choices:
* Monetary values are integers at the fixed scale of the
  `DECIMAL(15, 2)` columns (scaled integers, e.g. cents): the idealised
  exact semantics of those columns.  (The Python layer in fact routes
  the values through binary floats; that representation issue is
  discussed at the numerics claim and is not expressible here.)
* The database session is an explicit `Store` value.  A repository call
  returns `Except AppError`; an error result carries no store, which is
  the `db.rollback()` executed on every failure path of `update_balance`.
* `str(uuid.uuid4())` is nondeterministic, so the freshly generated
  identifier is passed to the model as an explicit `gen_uuid` argument.
* Creation order of transactions is their list order; `created_at`
  timestamps are not modelled separately.
-/

/-- Row of the `wallets` table (`wallet-service-cursor/app/models/wallet.py`,
class `Wallet`): integer primary key, unique external `uuid`, `balance`,
`currency` (default "USD"), `status` (default "active") and the optimistic
`version` counter (default 1).  `init_balance` is a history (ghost) field,
not a column: it records the balance the wallet was created with, is never
read by any operation, and exists only to state the replay invariant. -/
structure Wallet where
  id : Nat
  uuid : String
  balance : ℤ
  currency : String
  status : String
  version : Nat
  init_balance : ℤ
deriving DecidableEq

/-- Row of the `transactions` table
(`wallet-service-cursor/app/models/wallet.py`, class `Transaction`). -/
structure Transaction where
  id : Nat
  wallet_id : Nat
  operation_type : String
  amount : ℤ
  balance_before : ℤ
  balance_after : ℤ
  description : Option String
  reference_id : Option String
deriving DecidableEq

/-- The persistent state: the two tables plus their autoincrement
counters. -/
structure Store where
  wallets : List Wallet
  transactions : List Transaction
  nextWalletId : Nat
  nextTxId : Nat
deriving DecidableEq

/-- The empty database; SQL autoincrement keys start at 1. -/
def Store.empty : Store := ⟨[], [], 1, 1⟩

/-- The errors the embedded paths can raise, mirroring the exception
classes of `my_wallet_service/utils/exceptions.py` (`NotFoundError`,
`ValidationError`, `ConflictError`, `InsufficientFundsError`,
`InvalidOperationError`) plus Python's built-in `ValueError`, which
`wallet_repo.py` raises directly.  `ConflictError` and
`InvalidOperationError` are defined in the source but never raised by
the wallet paths. -/
inductive AppError where
  | notFound (resource : String) (resourceId : String)
  | validationError (message : String)
  | conflictError (message : String)
  | insufficientFunds (walletUuid : String) (requestedAmount : ℤ) (currentBalance : ℤ)
  | invalidOperation (operationType : String)
  | valueError (message : String)
deriving DecidableEq

/-- Python class name of the raised exception. -/
def AppError.pyClass : AppError → String
  | .notFound _ _ => "NotFoundError"
  | .validationError _ => "ValidationError"
  | .conflictError _ => "ConflictError"
  | .insufficientFunds _ _ _ => "InsufficientFundsError"
  | .invalidOperation _ => "InvalidOperationError"
  | .valueError _ => "ValueError"

/-- Python class name of the exception carried by a failed call. -/
def errClass {α : Type} : Except AppError α → Option String
  | .error e => some e.pyClass
  | .ok _ => none

/-- `WalletCreate` request schema
(`wallet-service-cursor/app/schemas/wallet.py`): optional caller-supplied
uuid, initial balance and a currency field. -/
structure WalletCreate where
  uuid : Option String
  initial_balance : ℤ
  currency : String
deriving DecidableEq

/-- `WalletOperationRequest` schema
(`wallet-service-cursor/app/schemas/wallet.py`). -/
structure WalletOperationRequest where
  operation_type : String
  amount : ℤ
  description : Option String
  reference_id : Option String
deriving DecidableEq

deriving instance DecidableEq for Except

/-! ### Model of `uuid.UUID(str)` acceptance

`create_wallet` validates caller-supplied identifiers with
`uuid.UUID(wallet_uuid)`.  CPython's parser removes every occurrence of
`urn:` and `uuid:`, strips curly braces from both ends, removes all
dashes, and then requires exactly 32 hexadecimal digits.  (Exotic
`int(_, 16)` literal forms such as underscore separators are not
modelled.) -/

/-- Drop `ps` as a prefix of the second list, if it is one. -/
def dropPrefixChars : List Char → List Char → Option (List Char)
  | [], l => some l
  | _ :: _, [] => none
  | p :: ps, c :: cs => if p = c then dropPrefixChars ps cs else none

/-- Remove every (leftmost-first, non-overlapping) occurrence of the
pattern `p :: ps`, as Python `str.replace(pat, "")` does.  The recursion
is driven by a fuel argument that starts at the list length; fuel never
runs out at that start value, since each step consumes at least one
character. -/
def removePatFuel (p : Char) (ps : List Char) : Nat → List Char → List Char
  | _, [] => []
  | 0, l => l
  | fuel + 1, c :: cs =>
    match dropPrefixChars (p :: ps) (c :: cs) with
    | some rest => removePatFuel p ps fuel rest
    | none => c :: removePatFuel p ps fuel cs

/-- Python `str.replace(pat, "")` for the pattern `p :: ps`. -/
def removePat (p : Char) (ps : List Char) (l : List Char) : List Char :=
  removePatFuel p ps l.length l

/-- Python `str.strip(chars)`: removes leading and trailing characters
belonging to `cs`. -/
def pyStrip (cs : List Char) (l : List Char) : List Char :=
  ((l.dropWhile (fun c => cs.contains c)).reverse.dropWhile (fun c => cs.contains c)).reverse

/-- Hexadecimal digit test. -/
def isHexChar (c : Char) : Bool :=
  c.isDigit || (decide (97 ≤ c.toNat) && decide (c.toNat ≤ 102)) ||
    (decide (65 ≤ c.toNat) && decide (c.toNat ≤ 70))

/-- Whether `uuid.UUID(s)` succeeds (see section comment above). -/
def pyUUIDValid (s : String) : Bool :=
  let h1 := removePat (Char.ofNat 117) [Char.ofNat 114, Char.ofNat 110, Char.ofNat 58] s.toList
  let h2 := removePat (Char.ofNat 117) [Char.ofNat 117, Char.ofNat 105, Char.ofNat 100, Char.ofNat 58] h1
  let h3 := pyStrip [Char.ofNat 123, Char.ofNat 125] h2
  let h4 := h3.filter (fun c => !(c == Char.ofNat 45))
  h4.length == 32 && h4.all isHexChar

namespace WalletRepository

/-- `WalletRepository.get_by_uuid` via `BaseRepository.get_by_field`:
first row whose `uuid` column matches. -/
def get_by_uuid (s : Store) (wallet_uuid : String) : Option Wallet :=
  s.wallets.find? (fun w => w.uuid == wallet_uuid)

/-- `WalletRepository.get_wallet_with_lock`: `SELECT … FOR UPDATE`.  The
lock only serialises concurrent sessions; in the sequential semantics it
is the same read as `get_by_uuid`. -/
def get_wallet_with_lock (s : Store) (wallet_uuid : String) : Option Wallet :=
  s.wallets.find? (fun w => w.uuid == wallet_uuid)

/-- Duplicate check plus the final `self.create(uuid=…, balance=…,
currency="USD", status="active")` call of
`WalletRepository.create_wallet` (`version` defaults to 1 per the model
column). -/
def create_checked (s : Store) (u : String) (initial_balance : ℤ) :
    Except AppError (Store × Wallet) :=
  match get_by_uuid s u with
  | some _ => .error (.valueError ("Wallet with UUID " ++ u ++ " already exists"))
  | none =>
      let w : Wallet := ⟨s.nextWalletId, u, initial_balance, "USD", "active", 1, initial_balance⟩
      .ok ({ s with wallets := s.wallets ++ [w], nextWalletId := s.nextWalletId + 1 }, w)

/-- `WalletRepository.create_wallet`.  When no identifier is supplied the
code uses `str(uuid.uuid4())`, passed in here as `gen_uuid`; a supplied
identifier is first validated with `uuid.UUID`. -/
def create_wallet (s : Store) (wallet_uuid : Option String) (gen_uuid : String)
    (initial_balance : ℤ) : Except AppError (Store × Wallet) :=
  match wallet_uuid with
  | none => create_checked s gen_uuid initial_balance
  | some u =>
      if pyUUIDValid u then create_checked s u initial_balance
      else .error (.valueError ("Invalid UUID format: " ++ u))

/-- The committed tail of `WalletRepository.update_balance`: write the new
balance, bump `version`, insert the `Transaction` row and commit. -/
def commitUpdate (s : Store) (w : Wallet) (operation_type : String) (amount : ℤ)
    (balance_before balance_after : ℤ) (description reference_id : Option String) :
    Store × Wallet × Transaction :=
  let w' : Wallet := { w with balance := balance_after, version := w.version + 1 }
  let t : Transaction :=
    ⟨s.nextTxId, w.id, operation_type, amount, balance_before, balance_after,
      description, reference_id⟩
  ({ s with wallets := s.wallets.map (fun x => if x.id = w.id then w' else x),
            transactions := s.transactions ++ [t],
            nextTxId := s.nextTxId + 1 }, w', t)

/-- `WalletRepository.update_balance`: locked read, status check, balance
computation with the insufficient-funds check, then commit of the wallet
update together with the transaction insertion.  Every failure path runs
`db.rollback()`, so an error result carries no store. -/
def update_balance (s : Store) (wallet_uuid : String) (amount : ℤ)
    (operation_type : String) (description reference_id : Option String) :
    Except AppError (Store × Wallet × Transaction) :=
  match get_wallet_with_lock s wallet_uuid with
  | none => .error (.notFound ("Wallet") wallet_uuid)
  | some wallet =>
      if wallet.status = "active" then
        let balance_before := wallet.balance
        if operation_type = "DEPOSIT" then
          .ok (commitUpdate s wallet operation_type amount balance_before
                (balance_before + amount) description reference_id)
        else if operation_type = "WITHDRAW" then
          if balance_before - amount < 0 then
            .error (.insufficientFunds wallet_uuid amount balance_before)
          else
            .ok (commitUpdate s wallet operation_type amount balance_before
                  (balance_before - amount) description reference_id)
        else
          .error (.valueError ("Invalid operation type: " ++ operation_type))
      else
        .error (.valueError ("Wallet " ++ wallet_uuid ++ " is not active (status: " ++
          wallet.status ++ ")"))

end WalletRepository

namespace WalletService

/-- The `except ValueError as e: raise ValidationError(str(e))` clause of
`WalletService.create_wallet`; every other exception is re-raised. -/
def mapValueError {α : Type} : Except AppError α → Except AppError α
  | .error (.valueError m) => .error (.validationError m)
  | r => r

/-- `WalletService.create_wallet`: validates a supplied uuid, delegates
to the repository (passing only `uuid` and `initial_balance`; the
request's `currency` is not forwarded), and converts `ValueError` to
`ValidationError`. -/
def create_wallet (s : Store) (gen_uuid : String) (wallet_data : WalletCreate) :
    Except AppError (Store × Wallet) :=
  match wallet_data.uuid with
  | some u =>
      if pyUUIDValid u then
        mapValueError (WalletRepository.create_wallet s (some u) gen_uuid
          wallet_data.initial_balance)
      else .error (.validationError ("Invalid UUID format: " ++ u))
  | none =>
      mapValueError (WalletRepository.create_wallet s none gen_uuid
        wallet_data.initial_balance)

/-- `WalletService.perform_operation`: rejects any operation type other
than DEPOSIT or WITHDRAW with `ValidationError` before calling
`update_balance` (which is where the row lock is taken); all repository
errors propagate unchanged. -/
def perform_operation (s : Store) (wallet_uuid : String)
    (operation_data : WalletOperationRequest) :
    Except AppError (Store × Wallet × Transaction) :=
  if operation_data.operation_type = "DEPOSIT" ∨
      operation_data.operation_type = "WITHDRAW" then
    WalletRepository.update_balance s wallet_uuid operation_data.amount
      operation_data.operation_type operation_data.description
      operation_data.reference_id
  else
    .error (.validationError ("Invalid operation type: " ++ operation_data.operation_type))

end WalletService

/-- One engine call, for stating history invariants. -/
inductive Op where
  | create (uuid : Option String) (gen_uuid : String) (initial_balance : ℤ) (currency : String)
  | perform (wallet_uuid : String) (operation_type : String) (amount : ℤ)
      (description : Option String) (reference_id : Option String)
deriving DecidableEq

/-- Apply one call to the store; a failed call leaves the store as the
rollback left it. -/
def stepOp (s : Store) : Op → Store
  | .create u g i c =>
      match WalletService.create_wallet s g ⟨u, i, c⟩ with
      | .ok (s', _) => s'
      | .error _ => s
  | .perform u ty a d r =>
      match WalletService.perform_operation s u ⟨ty, a, d, r⟩ with
      | .ok (s', _, _) => s'
      | .error _ => s

/-- Run a sequence of calls from a given store. -/
def runFrom (s : Store) (ops : List Op) : Store := ops.foldl stepOp s

/-- Run a sequence of calls against a fresh database. -/
def runOps (ops : List Op) : Store := runFrom Store.empty ops

/-! ### The ledger invariants -/

/-- Replay one transaction: the balance it leads to, by its type. -/
def applyTx (b : ℤ) (t : Transaction) : ℤ :=
  if t.operation_type = "DEPOSIT" then b + t.amount else b - t.amount

/-- `ledgerChain b0 bal ts`: the transaction list `ts`, in creation
order, is a well-formed ledger from balance `b0` to balance `bal`: each
entry is a DEPOSIT or WITHDRAW, its `balance_before` is the running
balance, its `balance_after` is `balance_before ± amount` according to
its type, and consecutive entries chain with no gaps. -/
def ledgerChain (b0 bal : ℤ) : List Transaction → Prop
  | [] => bal = b0
  | t :: ts =>
      (t.operation_type = "DEPOSIT" ∨ t.operation_type = "WITHDRAW") ∧
      t.balance_before = b0 ∧ t.balance_after = applyTx b0 t ∧
      ledgerChain t.balance_after bal ts

instance instDecidableLedgerChain :
    (b0 bal : ℤ) → (ts : List Transaction) → Decidable (ledgerChain b0 bal ts)
  | b0, bal, [] => by unfold ledgerChain; infer_instance
  | b0, bal, t :: ts => by
      unfold ledgerChain
      have := instDecidableLedgerChain t.balance_after bal ts
      infer_instance

/-- The transactions of one wallet, in creation order. -/
def txsOf (ts : List Transaction) (wid : Nat) : List Transaction :=
  ts.filter (fun t => t.wallet_id == wid)

theorem ledgerChain_foldl :
    ∀ (ts : List Transaction) (b0 bal : ℤ), ledgerChain b0 bal ts →
      ts.foldl applyTx b0 = bal
  | [], b0, bal, h => by simpa [List.foldl] using (h : bal = b0).symm
  | t :: ts, b0, bal, h => by
      obtain ⟨-, -, h3, h4⟩ := h
      simp only [List.foldl]
      rw [← h3]
      exact ledgerChain_foldl ts _ _ h4

theorem ledgerChain_append (t : Transaction) :
    ∀ (ts : List Transaction) (b0 bal : ℤ),
      ledgerChain b0 bal ts →
      (t.operation_type = "DEPOSIT" ∨ t.operation_type = "WITHDRAW") →
      t.balance_before = bal → t.balance_after = applyTx bal t →
      ledgerChain b0 t.balance_after (ts ++ [t])
  | [], b0, bal, h, h1, h2, h3 => by
      have hb : bal = b0 := h
      subst hb
      exact ⟨h1, h2, h3, rfl⟩
  | a :: as, b0, bal, h, h1, h2, h3 => by
      obtain ⟨g1, g2, g3, g4⟩ := h
      exact ⟨g1, g2, g3, ledgerChain_append t as _ _ g4 h1 h2 h3⟩

/-- Structural well-formedness of a reachable store: primary keys are
below the autoincrement counter and pairwise distinct, and every
transaction refers to an existing wallet. -/
def WFS (s : Store) : Prop :=
  (∀ w ∈ s.wallets, w.id < s.nextWalletId) ∧
  (s.wallets.map Wallet.id).Nodup ∧
  (∀ t ∈ s.transactions, ∃ w ∈ s.wallets, t.wallet_id = w.id)

/-- The ledger invariant: every wallet's transaction history is a
well-formed chain from its initial balance to its current balance, and
its version counter is 1 plus its number of committed transactions. -/
def LedgerInv (s : Store) : Prop :=
  ∀ w ∈ s.wallets,
    ledgerChain w.init_balance w.balance (txsOf s.transactions w.id) ∧
    w.version = 1 + (txsOf s.transactions w.id).length

/-! ### Result-shape lemmas for the two service calls -/

theorem WalletService.mapValueError_eq_ok {α : Type} {r : Except AppError α} {a : α}
    (h : WalletService.mapValueError r = .ok a) : r = .ok a := by
  cases r with
  | ok b => simpa [WalletService.mapValueError] using h
  | error e => cases e <;> simp [WalletService.mapValueError] at h

theorem WalletService.create_wallet_ok {s : Store} {g : String} {d : WalletCreate}
    {s' : Store} {w : Wallet}
    (h : WalletService.create_wallet s g d = .ok (s', w)) :
    w.id = s.nextWalletId ∧ w.balance = d.initial_balance ∧ w.currency = "USD" ∧
    w.status = "active" ∧ w.version = 1 ∧ w.init_balance = d.initial_balance ∧
    WalletRepository.get_by_uuid s w.uuid = none ∧
    s'.wallets = s.wallets ++ [w] ∧ s'.transactions = s.transactions ∧
    s'.nextWalletId = s.nextWalletId + 1 ∧ s'.nextTxId = s.nextTxId := by
  have key : ∀ u : String,
      WalletRepository.create_checked s u d.initial_balance = .ok (s', w) →
      w.id = s.nextWalletId ∧ w.balance = d.initial_balance ∧ w.currency = "USD" ∧
      w.status = "active" ∧ w.version = 1 ∧ w.init_balance = d.initial_balance ∧
      WalletRepository.get_by_uuid s w.uuid = none ∧
      s'.wallets = s.wallets ++ [w] ∧ s'.transactions = s.transactions ∧
      s'.nextWalletId = s.nextWalletId + 1 ∧ s'.nextTxId = s.nextTxId := by
    intro u hc
    unfold WalletRepository.create_checked at hc
    cases hu : WalletRepository.get_by_uuid s u with
    | some x => rw [hu] at hc; simp at hc
    | none =>
        rw [hu] at hc
        simp only [Except.ok.injEq, Prod.mk.injEq] at hc
        obtain ⟨hs', hw⟩ := hc
        subst hw
        subst hs'
        exact ⟨rfl, rfl, rfl, rfl, rfl, rfl, hu, rfl, rfl, rfl, rfl⟩
  obtain ⟨du, di, dc⟩ := d
  cases du with
  | none =>
      simp only [WalletService.create_wallet] at h
      have h2 := WalletService.mapValueError_eq_ok h
      simp only [WalletRepository.create_wallet] at h2
      exact key g h2
  | some u =>
      simp only [WalletService.create_wallet] at h
      by_cases hv : pyUUIDValid u
      · rw [if_pos hv] at h
        have h2 := WalletService.mapValueError_eq_ok h
        simp only [WalletRepository.create_wallet] at h2
        rw [if_pos hv] at h2
        exact key u h2
      · rw [if_neg hv] at h
        simp at h

theorem WalletRepository.commitUpdate_eq {s : Store} {w : Wallet} {ty : String}
    {a bb ba : ℤ} {d r : Option String} {s' : Store} {w' : Wallet} {t : Transaction}
    (h : (s', w', t) = WalletRepository.commitUpdate s w ty a bb ba d r) :
    w' = { w with balance := ba, version := w.version + 1 } ∧
    t = ⟨s.nextTxId, w.id, ty, a, bb, ba, d, r⟩ ∧
    s'.wallets = s.wallets.map (fun x => if x.id = w.id then w' else x) ∧
    s'.transactions = s.transactions ++ [t] ∧
    s'.nextWalletId = s.nextWalletId ∧ s'.nextTxId = s.nextTxId + 1 := by
  unfold WalletRepository.commitUpdate at h
  simp only [Prod.mk.injEq] at h
  obtain ⟨hs, hw, ht⟩ := h
  subst hs
  subst hw
  subst ht
  exact ⟨rfl, rfl, rfl, rfl, rfl, rfl⟩

theorem WalletService.perform_operation_ok {s : Store} {u : String}
    {op : WalletOperationRequest} {s' : Store} {w' : Wallet} {t : Transaction}
    (h : WalletService.perform_operation s u op = .ok (s', w', t)) :
    ∃ w ba,
      WalletRepository.get_wallet_with_lock s u = some w ∧ w.status = "active" ∧
      ((op.operation_type = "DEPOSIT" ∧ ba = w.balance + op.amount) ∨
       (op.operation_type = "WITHDRAW" ∧ ba = w.balance - op.amount ∧ 0 ≤ ba)) ∧
      (s', w', t) = WalletRepository.commitUpdate s w op.operation_type op.amount
        w.balance ba op.description op.reference_id := by
  unfold WalletService.perform_operation at h
  split at h
  case isFalse => simp at h
  case isTrue hty =>
    unfold WalletRepository.update_balance at h
    split at h
    case h_1 => simp at h
    case h_2 w hw =>
      split at h
      case isFalse => simp at h
      case isTrue hstatus =>
        split at h
        case isTrue hdep =>
            simp only [Except.ok.injEq] at h
            exact ⟨w, w.balance + op.amount, hw, hstatus,
              Or.inl ⟨hdep, rfl⟩, h.symm⟩
        case isFalse hdep =>
            simp only [] at h
            split at h
            case isTrue hwd =>
                split at h
                case isTrue hneg => simp at h
                case isFalse hneg =>
                    simp only [Except.ok.injEq] at h
                    exact ⟨w, w.balance - op.amount, hw, hstatus,
                      Or.inr ⟨hwd, rfl, le_of_not_lt (by simpa using hneg)⟩, h.symm⟩
            case isFalse hwd => simp at h

/-! ### Preservation of the invariants by every engine call -/

theorem stepOp_preserves_inv (s : Store) (op : Op) (hwf : WFS s) (hinv : LedgerInv s) :
    WFS (stepOp s op) ∧ LedgerInv (stepOp s op) := by
  cases op with
  | create u g i c =>
      simp only [stepOp]
      cases hres : WalletService.create_wallet s g ⟨u, i, c⟩ with
      | error e => exact ⟨hwf, hinv⟩
      | ok res =>
          obtain ⟨s', w⟩ := res
          show WFS s' ∧ LedgerInv s'
          obtain ⟨hid, hbal, hcur, hst, hver, hinit, hdup, hws, hts, hnw, hnt⟩ :=
            WalletService.create_wallet_ok hres
          have hfresh : ∀ t ∈ s.transactions, t.wallet_id ≠ w.id := by
            intro t ht
            obtain ⟨y, hy, hyid⟩ := hwf.2.2 t ht
            have := hwf.1 y hy
            omega
          constructor
          · refine ⟨?_, ?_, ?_⟩
            · intro x hx
              rw [hws] at hx
              rw [hnw]
              rcases List.mem_append.mp hx with hx | hx
              · have := hwf.1 x hx; omega
              · simp only [List.mem_singleton] at hx
                subst hx
                omega
            · rw [hws, List.map_append]
              rw [List.nodup_append]
              refine ⟨hwf.2.1, List.nodup_singleton _, ?_⟩
              intro b hb
              simp only [List.map_cons, List.map_nil, List.mem_singleton]
              intro hbw
              obtain ⟨x, hxmem, hxid⟩ := List.mem_map.mp hb
              have := hwf.1 x hxmem
              omega
            · intro t ht
              rw [hts] at ht
              obtain ⟨x, hx, hxid⟩ := hwf.2.2 t ht
              exact ⟨x, by rw [hws]; exact List.mem_append_left _ hx, hxid⟩
          · intro x hx
            rw [hws] at hx
            rw [hts]
            rcases List.mem_append.mp hx with hx | hx
            · exact hinv x hx
            · simp only [List.mem_singleton] at hx
              subst hx
              have hnil : txsOf s.transactions x.id = [] := by
                apply List.filter_eq_nil_iff.mpr
                intro t ht
                simpa using hfresh t ht
              rw [hnil]
              constructor
              · show x.balance = x.init_balance
                rw [hbal, hinit]
              · simpa using hver
  | perform u ty a d r =>
      simp only [stepOp]
      cases hres : WalletService.perform_operation s u ⟨ty, a, d, r⟩ with
      | error e => exact ⟨hwf, hinv⟩
      | ok res =>
          obtain ⟨s', w', t⟩ := res
          show WFS s' ∧ LedgerInv s'
          obtain ⟨w, ba, hw, hstatus, hbr, hcommit⟩ :=
            WalletService.perform_operation_ok hres
          obtain ⟨hw', ht, hws, hts, hnw, hnt⟩ := WalletRepository.commitUpdate_eq hcommit
          have hwmem : w ∈ s.wallets := List.mem_of_find?_eq_some hw
          have htw : t.wallet_id = w.id := by rw [ht]
          have hfid : ∀ x : Wallet, (if x.id = w.id then w' else x).id = x.id := by
            intro x
            by_cases hx : x.id = w.id
            · rw [if_pos hx, hw', hx]
            · rw [if_neg hx]
          have hmapid : s'.wallets.map Wallet.id = s.wallets.map Wallet.id := by
            rw [hws, List.map_map]
            exact List.map_congr_left (fun x _ => hfid x)
          constructor
          · refine ⟨?_, ?_, ?_⟩
            · intro x' hx'
              rw [hws] at hx'
              obtain ⟨x, hx, hfx⟩ := List.mem_map.mp hx'
              rw [hnw, ← hfx]
              rw [show (if x.id = w.id then w' else x).id = x.id from hfid x]
              exact hwf.1 x hx
            · rw [hmapid]; exact hwf.2.1
            · intro t'' ht''
              rw [hts] at ht''
              rcases List.mem_append.mp ht'' with ht'' | ht''
              · obtain ⟨y, hy, hyid⟩ := hwf.2.2 t'' ht''
                refine ⟨if y.id = w.id then w' else y, ?_, ?_⟩
                · rw [hws]; exact List.mem_map_of_mem _ hy
                · rw [hfid y]; exact hyid
              · simp only [List.mem_singleton] at ht''
                subst ht''
                refine ⟨w', ?_, ?_⟩
                · rw [hws]
                  exact List.mem_map.mpr ⟨w, hwmem, if_pos rfl⟩
                · rw [htw, hw']
          · intro x' hx'
            rw [hws] at hx'
            obtain ⟨x, hx, hfx⟩ := List.mem_map.mp hx'
            by_cases hxw : x.id = w.id
            · rw [if_pos hxw] at hfx
              subst hfx
              have hidw : w'.id = w.id := by rw [hw']
              have htxs : txsOf s'.transactions w'.id = txsOf s.transactions w.id ++ [t] := by
                rw [hts, hidw]
                unfold txsOf
                rw [List.filter_append]
                congr 1
                simp [htw]
              rw [htxs]
              have hchain := (hinv w hwmem).1
              have hlen := (hinv w hwmem).2
              have htype : t.operation_type = ty := by rw [ht]
              have htamount : t.amount = a := by rw [ht]
              have htbefore : t.balance_before = w.balance := by rw [ht]
              have htafter : t.balance_after = ba := by rw [ht]
              have htydw : t.operation_type = "DEPOSIT" ∨ t.operation_type = "WITHDRAW" := by
                rw [htype]
                rcases hbr with ⟨h1, -⟩ | ⟨h1, -⟩
                · exact Or.inl h1
                · exact Or.inr h1
              have happly : t.balance_after = applyTx w.balance t := by
                rw [htafter]
                unfold applyTx
                rcases hbr with ⟨h1, h2⟩ | ⟨h1, h2, -⟩
                · rw [if_pos (by rw [htype]; exact h1), htamount]
                  exact h2
                · have h1' : ty = "WITHDRAW" := h1
                  rw [if_neg (by rw [htype, h1']; decide), htamount]
                  exact h2
              constructor
              · have hout := ledgerChain_append t (txsOf s.transactions w.id)
                  w.init_balance w.balance hchain htydw htbefore happly
                have hinitw : w'.init_balance = w.init_balance := by rw [hw']
                have hbalw : w'.balance = t.balance_after := by rw [hw', htafter]
                rw [hinitw, hbalw]
                exact hout
              · have hverw : w'.version = w.version + 1 := by rw [hw']
                rw [hverw, hlen]
                simp only [List.length_append, List.length_singleton]
                omega
            · rw [if_neg hxw] at hfx
              subst hfx
              have htxs : txsOf s'.transactions x.id = txsOf s.transactions x.id := by
                rw [hts]
                unfold txsOf
                rw [List.filter_append]
                have : (t.wallet_id == x.id) = false := by
                  apply beq_eq_false_iff_ne.mpr
                  rw [htw]
                  intro hcon
                  exact hxw hcon.symm
                simp [this]
              rw [htxs]
              exact hinv x hx

theorem wfs_empty : WFS Store.empty := by
  refine ⟨?_, ?_, ?_⟩ <;> simp [Store.empty, WFS]

theorem ledgerInv_empty : LedgerInv Store.empty := by
  intro w hw
  simp [Store.empty] at hw

theorem runFrom_preserves_inv (ops : List Op) :
    ∀ s : Store, WFS s → LedgerInv s →
      WFS (runFrom s ops) ∧ LedgerInv (runFrom s ops) := by
  induction ops with
  | nil => intro s h1 h2; exact ⟨h1, h2⟩
  | cons op ops ih =>
      intro s h1 h2
      have hstep := stepOp_preserves_inv s op h1 h2
      exact ih (stepOp s op) hstep.1 hstep.2

theorem runOps_inv (ops : List Op) : WFS (runOps ops) ∧ LedgerInv (runOps ops) :=
  runFrom_preserves_inv ops Store.empty wfs_empty ledgerInv_empty

/-! ### Non-negativity -/

/-- The input contract of the spec's call surface: creations carry a
non-negative initial balance, operations a positive amount (enforced at
the schema boundary: `initial_balance ≥ 0`, `amount > 0`). -/
def Op.amountsOK : Op → Prop
  | .create _ _ i _ => 0 ≤ i
  | .perform _ _ a _ _ => 0 < a

instance instDecAmountsOK : (op : Op) → Decidable op.amountsOK
  | .create _ _ i _ => inferInstanceAs (Decidable (0 ≤ i))
  | .perform _ _ a _ _ => inferInstanceAs (Decidable (0 < a))

theorem stepOp_nonneg (s : Store) (op : Op) (hok : op.amountsOK)
    (h : ∀ w ∈ s.wallets, 0 ≤ w.balance) :
    ∀ w ∈ (stepOp s op).wallets, 0 ≤ w.balance := by
  cases op with
  | create u g i c =>
      simp only [stepOp]
      cases hres : WalletService.create_wallet s g ⟨u, i, c⟩ with
      | error e => exact h
      | ok res =>
          obtain ⟨s', w⟩ := res
          show ∀ x ∈ s'.wallets, 0 ≤ x.balance
          obtain ⟨hid, hbal, hcur, hst, hver, hinit, hdup, hws, hts, hnw, hnt⟩ :=
            WalletService.create_wallet_ok hres
          intro x hx
          rw [hws] at hx
          rcases List.mem_append.mp hx with hx | hx
          · exact h x hx
          · simp only [List.mem_singleton] at hx
            subst hx
            rw [hbal]
            exact hok
  | perform u ty a d r =>
      simp only [stepOp]
      cases hres : WalletService.perform_operation s u ⟨ty, a, d, r⟩ with
      | error e => exact h
      | ok res =>
          obtain ⟨s', w', t⟩ := res
          show ∀ x ∈ s'.wallets, 0 ≤ x.balance
          obtain ⟨w, ba, hw, hstatus, hbr, hcommit⟩ :=
            WalletService.perform_operation_ok hres
          obtain ⟨hw', ht, hws, hts, hnw, hnt⟩ := WalletRepository.commitUpdate_eq hcommit
          have hwmem : w ∈ s.wallets := List.mem_of_find?_eq_some hw
          intro x' hx'
          rw [hws] at hx'
          obtain ⟨x, hx, hfx⟩ := List.mem_map.mp hx'
          by_cases hxw : x.id = w.id
          · rw [if_pos hxw] at hfx
            subst hfx
            have hbal : w'.balance = ba := by rw [hw']
            rw [hbal]
            rcases hbr with ⟨-, h2⟩ | ⟨-, -, h2⟩
            · rw [h2]
              exact add_nonneg (h w hwmem) (le_of_lt hok)
            · exact h2
          · rw [if_neg hxw] at hfx
            subst hfx
            exact h x hx

theorem runFrom_nonneg (ops : List Op) :
    ∀ s : Store, (∀ op ∈ ops, op.amountsOK) → (∀ w ∈ s.wallets, 0 ≤ w.balance) →
      ∀ w ∈ (runFrom s ops).wallets, 0 ≤ w.balance := by
  induction ops with
  | nil => intro s _ h; exact h
  | cons op ops ih =>
      intro s hops h
      exact ih (stepOp s op)
        (fun o ho => hops o (List.mem_cons_of_mem _ ho))
        (stepOp_nonneg s op (hops op (List.mem_cons_self op ops)) h)

/-! ### Concrete stores used to instantiate the theorems -/

/-- A store holding one active wallet `w1` with balance 100. -/
def demoStore : Store := ⟨[⟨1, "w1", 100, "USD", "active", 1, 100⟩], [], 2, 1⟩

/-- The wallet stored in `demoStore`. -/
def demoWallet : Wallet := ⟨1, "w1", 100, "USD", "active", 1, 100⟩

/-- `demoStore` after a committed DEPOSIT of 50. -/
def demoDepositStore : Store :=
  ⟨[⟨1, "w1", 150, "USD", "active", 2, 100⟩],
   [⟨1, 1, "DEPOSIT", 50, 100, 150, none, none⟩], 2, 2⟩

/-- The wallet snapshot returned by that deposit. -/
def demoDepositWallet : Wallet := ⟨1, "w1", 150, "USD", "active", 2, 100⟩

/-- The transaction row inserted by that deposit. -/
def demoDepositTx : Transaction := ⟨1, 1, "DEPOSIT", 50, 100, 150, none, none⟩

/-- A concrete history: create with balance 100, deposit 40, a withdrawal
of 150 that fails with insufficient funds, then a withdrawal of exactly
the whole balance. -/
def demoOps : List Op :=
  [.create none "w1" 100 "USD",
   .perform "w1" "DEPOSIT" 40 none none,
   .perform "w1" "WITHDRAW" 150 none none,
   .perform "w1" "WITHDRAW" 140 none none]

/-- The wallet `runOps demoOps` ends with. -/
def demoRunWallet : Wallet := ⟨1, "w1", 0, "USD", "active", 3, 100⟩

/-- A store holding one frozen wallet. -/
def frozenStore : Store := ⟨[⟨1, "w1", 100, "USD", "frozen", 1, 100⟩], [], 2, 1⟩

/-- The frozen wallet stored in `frozenStore`. -/
def frozenWallet : Wallet := ⟨1, "w1", 100, "USD", "frozen", 1, 100⟩

/-- A fixed well-formed UUID string. -/
def dupUuid : String := "123e4567-e89b-12d3-a456-426614174000"

/-- The store produced by creating a wallet with uuid `dupUuid` and
initial balance 50 in an empty store. -/
def c8Store : Store := ⟨[⟨1, dupUuid, 50, "USD", "active", 1, 50⟩], [], 2, 1⟩

/-- The wallet stored in `c8Store`. -/
def c8Wallet : Wallet := ⟨1, dupUuid, 50, "USD", "active", 1, 50⟩

/-! ### Computation lemmas for the operation paths -/

theorem WalletService.perform_operation_eq_update {s : Store} {u ty : String}
    {a : ℤ} {d r : Option String} (hty : ty = "DEPOSIT" ∨ ty = "WITHDRAW") :
    WalletService.perform_operation s u ⟨ty, a, d, r⟩ =
      WalletRepository.update_balance s u a ty d r := by
  simp only [WalletService.perform_operation]
  rw [if_pos hty]

theorem WalletRepository.update_balance_deposit {s : Store} {u : String} {w : Wallet}
    (hw : WalletRepository.get_wallet_with_lock s u = some w)
    (hst : w.status = "active") (a : ℤ) (d r : Option String) :
    WalletRepository.update_balance s u a "DEPOSIT" d r =
      .ok (WalletRepository.commitUpdate s w "DEPOSIT" a w.balance (w.balance + a) d r) := by
  simp [WalletRepository.update_balance, hw, hst]

theorem WalletRepository.update_balance_withdraw {s : Store} {u : String} {w : Wallet}
    (hw : WalletRepository.get_wallet_with_lock s u = some w)
    (hst : w.status = "active") (a : ℤ) (d r : Option String) :
    WalletRepository.update_balance s u a "WITHDRAW" d r =
      (if w.balance - a < 0 then .error (.insufficientFunds u a w.balance)
       else .ok (WalletRepository.commitUpdate s w "WITHDRAW" a w.balance
              (w.balance - a) d r)) := by
  simp [WalletRepository.update_balance, hw, hst]

/-! ### The claims -/

/-- C1: On an active wallet with balance `b`, for any amount `a > 0`, a
DEPOSIT succeeds with new balance `b + a`; a WITHDRAW fails with
`InsufficientFunds` carrying the wallet id, the requested amount and the
current balance — leaving the store unchanged — exactly when `a > b`,
and succeeds with new balance `b - a` when `a ≤ b` (so withdrawing
exactly `b` succeeds and yields balance 0). -/
theorem C1_deposit_withdraw (s : Store) (u : String) (w : Wallet) (a : ℤ)
    (d r : Option String)
    (hw : WalletRepository.get_wallet_with_lock s u = some w)
    (hst : w.status = "active") (ha : 0 < a) :
    (∃ s' w' t, WalletService.perform_operation s u ⟨"DEPOSIT", a, d, r⟩ =
        .ok (s', w', t) ∧ w'.balance = w.balance + a ∧
        t.balance_before = w.balance ∧ t.balance_after = w.balance + a) ∧
    (WalletService.perform_operation s u ⟨"WITHDRAW", a, d, r⟩ =
        .error (.insufficientFunds u a w.balance) ↔ w.balance < a) ∧
    (w.balance < a → stepOp s (.perform u "WITHDRAW" a d r) = s) ∧
    (a ≤ w.balance → ∃ s' w' t,
        WalletService.perform_operation s u ⟨"WITHDRAW", a, d, r⟩ = .ok (s', w', t) ∧
        w'.balance = w.balance - a ∧ t.balance_after = w.balance - a) := by
  have hpd : WalletService.perform_operation s u ⟨"DEPOSIT", a, d, r⟩ =
      WalletRepository.update_balance s u a "DEPOSIT" d r :=
    WalletService.perform_operation_eq_update (Or.inl rfl)
  have hpw : WalletService.perform_operation s u ⟨"WITHDRAW", a, d, r⟩ =
      WalletRepository.update_balance s u a "WITHDRAW" d r :=
    WalletService.perform_operation_eq_update (Or.inr rfl)
  have hdep := WalletRepository.update_balance_deposit hw hst a d r
  have hwd := WalletRepository.update_balance_withdraw hw hst a d r
  refine ⟨?_, ?_, ?_, ?_⟩
  · exact ⟨_, _, _, by rw [hpd, hdep], rfl, rfl, rfl⟩
  · rw [hpw, hwd]
    by_cases hlt : w.balance < a
    · rw [if_pos (by omega)]
      exact iff_of_true rfl hlt
    · rw [if_neg (by omega)]
      exact iff_of_false (by simp) hlt
  · intro hlt
    have herr : WalletService.perform_operation s u ⟨"WITHDRAW", a, d, r⟩ =
        .error (.insufficientFunds u a w.balance) := by
      rw [hpw, hwd, if_pos (by omega)]
    simp only [stepOp, herr]
  · intro hle
    exact ⟨_, _, _, by rw [hpw, hwd, if_neg (by omega)], rfl, rfl⟩

/-- C2: Replaying each wallet's transactions in creation order from its
initial balance reproduces exactly its current balance: the chain
condition holds (each entry's `balance_after` is `balance_before ±
amount` by type, entries chain gaplessly, and the final entry's
`balance_after` is the stored balance), and folding the replay function
over the history equals the stored balance. -/
theorem C2_replay (ops : List Op) :
    ∀ w ∈ (runOps ops).wallets,
      ledgerChain w.init_balance w.balance (txsOf (runOps ops).transactions w.id) ∧
      (txsOf (runOps ops).transactions w.id).foldl applyTx w.init_balance = w.balance := by
  intro w hw
  have h := (runOps_inv ops).2 w hw
  exact ⟨h.1, ledgerChain_foldl _ _ _ h.1⟩

/-- C2 witness: the demo run ends with balance 0 reproduced by its
two-transaction history from initial balance 100. -/
theorem C2_replay_witness :
    demoRunWallet ∈ (runOps demoOps).wallets ∧
    (ledgerChain demoRunWallet.init_balance demoRunWallet.balance
        (txsOf (runOps demoOps).transactions demoRunWallet.id) ∧
      (txsOf (runOps demoOps).transactions demoRunWallet.id).foldl applyTx
        demoRunWallet.init_balance = demoRunWallet.balance) :=
  ⟨by decide, C2_replay demoOps demoRunWallet (by decide)⟩

/-- C3: If every creation in a history carries a non-negative initial
balance and every operation a positive amount, then every wallet of the
resulting committed store has a non-negative balance. -/
theorem C3_nonneg (ops : List Op) (hops : ∀ op ∈ ops, op.amountsOK) :
    ∀ w ∈ (runOps ops).wallets, 0 ≤ w.balance := by
  have hbase : ∀ w ∈ Store.empty.wallets, 0 ≤ w.balance := by
    intro w hw
    simp [Store.empty] at hw
  exact runFrom_nonneg ops Store.empty hops hbase

/-- C3 witness: the demo history (which contains a failing overdraft
attempt) satisfies the input contract and ends with balance 0 ≥ 0. -/
theorem C3_nonneg_witness :
    (∀ op ∈ demoOps, op.amountsOK) ∧ demoRunWallet ∈ (runOps demoOps).wallets ∧
    0 ≤ demoRunWallet.balance :=
  ⟨by decide, by decide, C3_nonneg demoOps (by decide) demoRunWallet (by decide)⟩

/-- C4: A successful `perform_operation` appends exactly one transaction
row, rewrites exactly the locked wallet row (every other row is
unchanged, none is inserted or deleted, and the row keeps its id, uuid,
currency and status), and allocates no wallet id; a failing call leaves
the store exactly as it was (full rollback). -/
theorem C4_frame (s : Store) (u : String) (op : WalletOperationRequest) :
    (∀ s' w' t, WalletService.perform_operation s u op = .ok (s', w', t) →
        s'.transactions = s.transactions ++ [t] ∧
        (∃ w, WalletRepository.get_wallet_with_lock s u = some w ∧
            s'.wallets = s.wallets.map (fun x => if x.id = w.id then w' else x) ∧
            w'.id = w.id ∧ w'.uuid = w.uuid ∧ w'.currency = w.currency ∧
            w'.status = w.status) ∧
        s'.nextWalletId = s.nextWalletId) ∧
    (∀ e, WalletService.perform_operation s u op = .error e →
        stepOp s (.perform u op.operation_type op.amount op.description
          op.reference_id) = s) := by
  constructor
  · intro s' w' t h
    obtain ⟨w, ba, hw, -, -, hcommit⟩ := WalletService.perform_operation_ok h
    obtain ⟨hw', ht, hws, hts, hnw, -⟩ := WalletRepository.commitUpdate_eq hcommit
    exact ⟨hts, ⟨w, hw, hws, by rw [hw'], by rw [hw'], by rw [hw'], by rw [hw']⟩, hnw⟩
  · intro e h
    have hop : (⟨op.operation_type, op.amount, op.description, op.reference_id⟩ :
        WalletOperationRequest) = op := rfl
    simp only [stepOp, hop, h]

/-- C4 witness: the deposit of 50 on the demo store adds exactly the one
transaction row and rewrites exactly the one wallet row. -/
theorem C4_frame_witness :
    demoDepositStore.transactions = demoStore.transactions ++ [demoDepositTx] ∧
    (∃ w, WalletRepository.get_wallet_with_lock demoStore "w1" = some w ∧
        demoDepositStore.wallets = demoStore.wallets.map
          (fun x => if x.id = w.id then demoDepositWallet else x) ∧
        demoDepositWallet.id = w.id ∧ demoDepositWallet.uuid = w.uuid ∧
        demoDepositWallet.currency = w.currency ∧ demoDepositWallet.status = w.status) ∧
    demoDepositStore.nextWalletId = demoStore.nextWalletId :=
  (C4_frame demoStore "w1" ⟨"DEPOSIT", 50, none, none⟩).1
    demoDepositStore demoDepositWallet demoDepositTx (by decide)

/-- C6: Every wallet's version counter equals 1 (its value at creation)
plus the number of its committed transactions — i.e. n committed
mutations yield version n + 1; each successful operation increments the
locked wallet's version by exactly 1; and a failed operation leaves the
store (hence every version) unchanged. -/
theorem C6_version (ops : List Op) :
    (∀ w ∈ (runOps ops).wallets,
        w.version = 1 + (txsOf (runOps ops).transactions w.id).length) ∧
    (∀ (s2 : Store) (u2 : String) (op2 : WalletOperationRequest) s' w' t,
        WalletService.perform_operation s2 u2 op2 = .ok (s', w', t) →
        ∃ w, WalletRepository.get_wallet_with_lock s2 u2 = some w ∧
          w'.version = w.version + 1) ∧
    (∀ (s2 : Store) (u2 : String) (op2 : WalletOperationRequest) e,
        WalletService.perform_operation s2 u2 op2 = .error e →
        stepOp s2 (.perform u2 op2.operation_type op2.amount op2.description
          op2.reference_id) = s2) := by
  refine ⟨fun w hw => ((runOps_inv ops).2 w hw).2, ?_, ?_⟩
  · intro s2 u2 op2 s' w' t h
    obtain ⟨w, ba, hw, -, -, hcommit⟩ := WalletService.perform_operation_ok h
    obtain ⟨hw', -, -, -, -, -⟩ := WalletRepository.commitUpdate_eq hcommit
    exact ⟨w, hw, by rw [hw']⟩
  · intro s2 u2 op2 e h
    have hop : (⟨op2.operation_type, op2.amount, op2.description, op2.reference_id⟩ :
        WalletOperationRequest) = op2 := rfl
    simp only [stepOp, hop, h]

/-- C6 witness: after the demo run (2 committed mutations) the version is
3 = 1 + 2, and the concrete deposit bumps the version from 1 to 2. -/
theorem C6_version_witness :
    demoRunWallet.version =
      1 + (txsOf (runOps demoOps).transactions demoRunWallet.id).length ∧
    (∃ w, WalletRepository.get_wallet_with_lock demoStore "w1" = some w ∧
        demoDepositWallet.version = w.version + 1) :=
  ⟨(C6_version demoOps).1 demoRunWallet (by decide),
   (C6_version demoOps).2.1 demoStore "w1" ⟨"DEPOSIT", 50, none, none⟩
     demoDepositStore demoDepositWallet demoDepositTx (by decide)⟩

/-- C1 witness: on the demo wallet (balance 100), a deposit of 40
succeeds with balance 140; a withdrawal of 40 does not fail because
40 ≤ 100 and succeeds with balance 60. -/
theorem C1_deposit_withdraw_witness :
    (∃ s' w' t, WalletService.perform_operation demoStore "w1" ⟨"DEPOSIT", 40, none, none⟩ =
        .ok (s', w', t) ∧ w'.balance = demoWallet.balance + 40 ∧
        t.balance_before = demoWallet.balance ∧
        t.balance_after = demoWallet.balance + 40) ∧
    (WalletService.perform_operation demoStore "w1" ⟨"WITHDRAW", 40, none, none⟩ =
        .error (.insufficientFunds "w1" 40 demoWallet.balance) ↔ demoWallet.balance < 40) ∧
    (demoWallet.balance < 40 → stepOp demoStore (.perform "w1" "WITHDRAW" 40 none none) =
        demoStore) ∧
    (40 ≤ demoWallet.balance → ∃ s' w' t,
        WalletService.perform_operation demoStore "w1" ⟨"WITHDRAW", 40, none, none⟩ =
          .ok (s', w', t) ∧ w'.balance = demoWallet.balance - 40 ∧
        t.balance_after = demoWallet.balance - 40) :=
  C1_deposit_withdraw demoStore "w1" demoWallet 40 none none (by decide) (by decide)
    (by decide)

/-- C7 counterexample to the claim as stated: a WITHDRAW on a frozen
wallet does fail, but the raised exception is Python's generic
`ValueError` — the code defines no dedicated `InvalidState` error class
at all, and the very same `ValueError` class is what the repository
raises for an invalid operation type (a validation failure), so the
inactive-wallet failure is not signalled by an error type distinct from
validation errors. -/
theorem C7_counterexample :
    WalletService.perform_operation frozenStore "w1" ⟨"WITHDRAW", 5, none, none⟩ =
      .error (.valueError ("Wallet w1 is not active (status: frozen)")) ∧
    errClass (WalletService.perform_operation frozenStore "w1" ⟨"WITHDRAW", 5, none, none⟩) =
      some ("ValueError") ∧
    errClass (WalletRepository.update_balance demoStore "w1" 5 "TRANSFER" none none) =
      some ("ValueError") := by
  decide

/-- C7 amended: `perform_operation` on a wallet whose status is not
`active` aborts with nothing persisted and raises a plain `ValueError`
naming the wallet and its status; there is no distinct `InvalidState`
error type — the same `ValueError` class also signals repository-level
validation failures. -/
theorem C7_inactive (s : Store) (u : String) (w : Wallet) (op : WalletOperationRequest)
    (hw : WalletRepository.get_wallet_with_lock s u = some w)
    (hst : ¬ w.status = "active")
    (hty : op.operation_type = "DEPOSIT" ∨ op.operation_type = "WITHDRAW") :
    WalletService.perform_operation s u op =
      .error (.valueError ("Wallet " ++ u ++ " is not active (status: " ++
        w.status ++ ")")) ∧
    stepOp s (.perform u op.operation_type op.amount op.description
      op.reference_id) = s := by
  obtain ⟨ty, a, d, r⟩ := op
  have herr : WalletService.perform_operation s u ⟨ty, a, d, r⟩ =
      .error (.valueError ("Wallet " ++ u ++ " is not active (status: " ++
        w.status ++ ")")) := by
    rw [WalletService.perform_operation_eq_update hty]
    simp only [WalletRepository.update_balance, hw]
    rw [if_neg hst]
  exact ⟨herr, by simp only [stepOp, herr]⟩

/-- C7 witness: the frozen demo wallet rejects a withdrawal with the
`ValueError` and the store is unchanged. -/
theorem C7_inactive_witness :
    WalletService.perform_operation frozenStore "w1" ⟨"WITHDRAW", 5, none, none⟩ =
      .error (.valueError ("Wallet " ++ "w1" ++ " is not active (status: " ++
        frozenWallet.status ++ ")")) ∧
    stepOp frozenStore (.perform "w1" "WITHDRAW" 5 none none) = frozenStore :=
  C7_inactive frozenStore "w1" frozenWallet ⟨"WITHDRAW", 5, none, none⟩
    (by decide) (by decide) (Or.inr rfl)

/-- C8 counterexample to the claim as stated: creating the same valid
uuid twice fails the second time, but with `ValidationError`, not with a
`Conflict` error — the repository raises `ValueError` and the service's
`except ValueError` clause converts it to `ValidationError`; the
`ConflictError` class defined in the codebase is never raised. -/
theorem C8_counterexample :
    WalletService.create_wallet Store.empty "g1" ⟨some dupUuid, 50, "USD"⟩ =
      .ok (c8Store, c8Wallet) ∧
    WalletService.create_wallet c8Store "g2" ⟨some dupUuid, 50, "USD"⟩ =
      .error (.validationError ("Wallet with UUID " ++ dupUuid ++ " already exists")) ∧
    errClass (WalletService.create_wallet c8Store "g2" ⟨some dupUuid, 50, "USD"⟩) ≠
      some ("ConflictError") := by
  decide

/-- C8 amended: a `create_wallet` call whose caller-supplied identifier
is already in use fails with `ValidationError` (the duplicate-check
`ValueError` converted by the service), and the stored state after the
failed call is identical to the state before it. -/
theorem C8_duplicate (s : Store) (g : String) (d : WalletCreate) (u : String)
    (w : Wallet) (hu : d.uuid = some u) (hvalid : pyUUIDValid u = true)
    (hdup : WalletRepository.get_by_uuid s u = some w) :
    WalletService.create_wallet s g d =
      .error (.validationError ("Wallet with UUID " ++ u ++ " already exists")) ∧
    stepOp s (.create d.uuid g d.initial_balance d.currency) = s := by
  obtain ⟨du, di, dc⟩ := d
  have hu' : du = some u := hu
  subst hu'
  have herr : WalletService.create_wallet s g ⟨some u, di, dc⟩ =
      .error (.validationError ("Wallet with UUID " ++ u ++ " already exists")) := by
    simp only [WalletService.create_wallet]
    rw [if_pos hvalid]
    simp only [WalletRepository.create_wallet]
    rw [if_pos hvalid]
    simp only [WalletRepository.create_checked, hdup]
    rfl
  exact ⟨herr, by simp only [stepOp, herr]⟩

/-- C8 witness: a second creation of `dupUuid` against `c8Store` fails
with the `ValidationError` and leaves the store identical. -/
theorem C8_duplicate_witness :
    WalletService.create_wallet c8Store "g3" ⟨some dupUuid, 50, "USD"⟩ =
      .error (.validationError ("Wallet with UUID " ++ dupUuid ++ " already exists")) ∧
    stepOp c8Store (.create (some dupUuid) "g3" 50 "USD") = c8Store :=
  C8_duplicate c8Store "g3" ⟨some dupUuid, 50, "USD"⟩ dupUuid c8Wallet rfl
    (by decide) (by decide)

/-- C9: A `perform_operation` whose operation type is neither DEPOSIT nor
WITHDRAW fails with `ValidationError` in the service, before
`update_balance` (the only place the row lock is taken) is entered: the
outcome does not depend on the stored state at all — no wallet is read —
and nothing is persisted. -/
theorem C9_failfast (s : Store) (u : String) (op : WalletOperationRequest)
    (h1 : op.operation_type ≠ "DEPOSIT") (h2 : op.operation_type ≠ "WITHDRAW") :
    WalletService.perform_operation s u op =
      .error (.validationError ("Invalid operation type: " ++ op.operation_type)) ∧
    (∀ s2, WalletService.perform_operation s2 u op =
        WalletService.perform_operation s u op) ∧
    stepOp s (.perform u op.operation_type op.amount op.description
      op.reference_id) = s := by
  obtain ⟨ty, a, d, r⟩ := op
  have hcond : ¬(ty = "DEPOSIT" ∨ ty = "WITHDRAW") := fun h => h.elim h1 h2
  have herr : ∀ s3 : Store, WalletService.perform_operation s3 u ⟨ty, a, d, r⟩ =
      .error (.validationError ("Invalid operation type: " ++ ty)) := by
    intro s3
    simp only [WalletService.perform_operation]
    rw [if_neg hcond]
  exact ⟨herr s, fun s2 => by rw [herr s2, herr s], by simp only [stepOp, herr s]⟩

/-- C9 witness: a TRANSFER request fails with `ValidationError`, the
outcome is the same against the demo store and the empty store (no
stored wallet is consulted), and the store is unchanged. -/
theorem C9_failfast_witness :
    WalletService.perform_operation demoStore "w1" ⟨"TRANSFER", 5, none, none⟩ =
      .error (.validationError ("Invalid operation type: " ++ "TRANSFER")) ∧
    (∀ s2, WalletService.perform_operation s2 "w1" ⟨"TRANSFER", 5, none, none⟩ =
        WalletService.perform_operation demoStore "w1" ⟨"TRANSFER", 5, none, none⟩) ∧
    stepOp demoStore (.perform "w1" "TRANSFER" 5 none none) = demoStore :=
  C9_failfast demoStore "w1" ⟨"TRANSFER", 5, none, none⟩ (by decide) (by decide)

/-- C10: Every wallet a successful `create_wallet` returns has currency
"USD" — the repository hardcodes it — and the service call never reads
the request's `currency` field: changing it does not change the result
at all. -/
theorem C10_currency_usd (s : Store) (g : String) (d : WalletCreate) :
    (∀ s' w, WalletService.create_wallet s g d = .ok (s', w) → w.currency = "USD") ∧
    (∀ c, WalletService.create_wallet s g { d with currency := c } =
        WalletService.create_wallet s g d) := by
  constructor
  · intro s' w h
    exact (WalletService.create_wallet_ok h).2.2.1
  · intro c
    obtain ⟨du, di, dc⟩ := d
    rfl

/-- C10 witness: creating a wallet while requesting currency "EUR" still
stores "USD", and requesting "JPY" gives the identical result. -/
theorem C10_currency_usd_witness :
    WalletService.create_wallet Store.empty "w1" ⟨none, 100, "EUR"⟩ =
      .ok (demoStore, demoWallet) ∧
    demoWallet.currency = "USD" ∧
    WalletService.create_wallet Store.empty "w1" ⟨none, 100, "JPY"⟩ =
      WalletService.create_wallet Store.empty "w1" ⟨none, 100, "EUR"⟩ :=
  ⟨by decide,
   (C10_currency_usd Store.empty "w1" ⟨none, 100, "EUR"⟩).1 demoStore demoWallet
     (by decide),
   (C10_currency_usd Store.empty "w1" ⟨none, 100, "EUR"⟩).2 "JPY"⟩
